import Mathlib

/-!
Verification of the session-time editor of the TiP study scheduler
(`src/utils/session-time-editor.ts`), as a shallow embedding.

Times are `"HH:MM"` strings, converted to minutes by `timeToMinutes`.
Session durations are measured in whole minutes (`durationMinutes` stands
for the source's `sessionDuration * 60`); JavaScript floating-point
semantics for fractional-minute durations is out of scope.  The browser
facilities the class touches (`localStorage`, `JSON.parse`, `Date`) are
modelled as explicit parameters: the weekday function `new Date(d).getDay()`
becomes the field `getDay`, and the mutable `sessionTimeEdits` array is
threaded through as explicit state of type `List SessionTimeEdit`.
-/

namespace TiP

/-! ## Data model (fields the editor reads; unused fields omitted) -/

/-- One scheduled study block (`StudySession` in `types`). -/
structure StudySession where
  taskId : String
  sessionNumber : Nat
  startTime : String
  endTime : String
  status : String
  done : Bool
deriving DecidableEq, Repr

/-- One day's plan (`StudyPlan`). -/
structure StudyPlan where
  date : String
  plannedTasks : List StudySession
deriving DecidableEq, Repr

/-- Partial per-date override stored in `modifiedOccurrences[date]`.
The TypeScript record may carry any subset of these fields. -/
structure OccurrenceModification where
  startTime : Option String
  endTime : Option String
  title : Option String
  type : Option String
deriving DecidableEq, Repr

/-- Fixed calendar commitment (`FixedCommitment`).  The optional
`deletedOccurrences` / `specificDates` arrays are modelled as plain lists
(an absent array behaves exactly like `[]` under `?.includes`), and the
`modifiedOccurrences` map as an association list. -/
structure FixedCommitment where
  id : String
  title : String
  startTime : String
  endTime : String
  type : String
  recurring : Bool
  daysOfWeek : List Nat
  specificDates : List String
  deletedOccurrences : List String
  modifiedOccurrences : List (String × OccurrenceModification)
deriving DecidableEq, Repr

/-- Settings fields the editor consumes (`UserSettings`). -/
structure UserSettings where
  studyWindowStartHour : Nat
  studyWindowEndHour : Nat
  workDays : List Nat
deriving DecidableEq, Repr

/-- One stored override (`SessionTimeEdit`). -/
structure SessionTimeEdit where
  id : String
  planDate : String
  taskId : String
  sessionNumber : Nat
  originalStartTime : String
  newStartTime : String
  newEndTime : String
  editedAt : String
  isTemporary : Bool
deriving DecidableEq, Repr

/-- The constructor arguments of `SessionTimeEditor`, plus `getDay`,
which models `new Date(dateString).getDay()`. -/
structure EditorEnv where
  studyPlans : List StudyPlan
  fixedCommitments : List FixedCommitment
  settings : UserSettings
  getDay : String → Nat

/-! ## Time arithmetic (`timeToMinutes` / `minutesToTime`)

Decimal printing of a `Nat` (JavaScript `n.toString()`) is implemented
with explicit fuel so that every definition reduces in the kernel. -/

/-- Decimal digit character for `n < 10` (out-of-range defaults to `'0'`,
never reached by `natStr`). -/
def digitOf : Nat → Char
  | 0 => '0' | 1 => '1' | 2 => '2' | 3 => '3' | 4 => '4'
  | 5 => '5' | 6 => '6' | 7 => '7' | 8 => '8' | 9 => '9'
  | _ => '0'

/-- Fuel-driven decimal digits, most significant first. -/
def natStrGo : Nat → Nat → List Char
  | 0, _ => []
  | fuel + 1, n =>
    if n < 10 then [digitOf n] else natStrGo fuel (n / 10) ++ [digitOf (n % 10)]

/-- Decimal digits of `n` (`n.toString()` as a character list). -/
def natStr (n : Nat) : List Char := natStrGo (n + 1) n

/-- JavaScript `n.toString()` for a natural number. -/
def natToString (n : Nat) : String := ⟨natStr n⟩

/-- JavaScript `Number(str)` on a digit string, as the same left fold the
runtime performs; `Number("") = 0`, and `NaN` poisoning of malformed input
is out of scope (the design assumes well-formed `HH:MM`). -/
def jsNumber (l : List Char) : Nat :=
  l.foldl (fun a c => a * 10 + (c.toNat - 48)) 0

/-- `timeToMinutes`: `split(':')`, `Number` each part, `hours*60 + (minutes || 0)`.
A missing minutes part contributes 0. -/
def timeToMinutes (s : String) : Nat :=
  let parts := s.data.splitOn ':'
  jsNumber (parts.headD []) * 60 + jsNumber (parts.getD 1 [])

/-- `str.padStart(2, '0')`. -/
def padStart2 (l : List Char) : List Char :=
  List.replicate (2 - l.length) '0' ++ l

/-- `minutesToTime`: zero-padded `"HH:MM"` from a minute count
(`Math.floor(m/60)` and `m % 60`), no day-rollover clamp. -/
def minutesToTime (m : Nat) : String :=
  ⟨padStart2 (natStr (m / 60)) ++ ':' :: padStart2 (natStr (m % 60))⟩

/-! ### Round-trip facts about the time arithmetic -/

theorem digitOf_toNat_sub {n : Nat} (h : n < 10) : (digitOf n).toNat - 48 = n := by
  interval_cases n <;> decide

theorem digitOf_ne_colon (n : Nat) : digitOf n ≠ ':' := by
  unfold digitOf; split <;> decide

theorem foldl_natStrGo (fuel : Nat) :
    ∀ n acc, n < fuel →
      (natStrGo fuel n).foldl (fun a c => a * 10 + (c.toNat - 48)) acc
        = acc * 10 ^ (natStrGo fuel n).length + n := by
  induction fuel with
  | zero => intro n acc h; omega
  | succ fuel ih =>
    intro n acc h
    by_cases hn : n < 10
    · simp [natStrGo, hn, digitOf_toNat_sub hn]
    · have hdiv : n / 10 < fuel := by
        have h1 : n / 10 < n := Nat.div_lt_self (by omega) (by omega)
        omega
      have hrec := ih (n / 10) acc hdiv
      simp only [natStrGo, if_neg hn, List.foldl_append, List.length_append,
        List.length_cons, List.length_nil, List.foldl_cons, List.foldl_nil]
      rw [hrec, digitOf_toNat_sub (Nat.mod_lt n (by omega))]
      have hmod : n / 10 * 10 + n % 10 = n := by omega
      rw [pow_succ]
      ring_nf
      omega

theorem jsNumber_natStr (n : Nat) : jsNumber (natStr n) = n := by
  simpa using foldl_natStrGo (n + 1) n 0 (by omega)

theorem jsNumber_padStart2_natStr (n : Nat) : jsNumber (padStart2 (natStr n)) = n := by
  unfold padStart2 jsNumber
  rw [List.foldl_append]
  have hz : ∀ (j : Nat),
      (List.replicate j '0').foldl (fun a c => a * 10 + (c.toNat - 48)) 0 = 0 := by
    intro j
    induction j with
    | zero => rfl
    | succ j ihj => simpa [List.replicate_succ] using ihj
  rw [hz]
  exact jsNumber_natStr n

theorem natStr_no_colon (n : Nat) : ':' ∉ natStr n := by
  unfold natStr
  generalize n + 1 = fuel
  induction fuel generalizing n with
  | zero => simp [natStrGo]
  | succ fuel ih =>
    by_cases hn : n < 10
    · simp only [natStrGo, if_pos hn, List.mem_singleton]
      exact fun h => digitOf_ne_colon n h.symm
    · simp only [natStrGo, if_neg hn, List.mem_append, List.mem_singleton]
      rintro (h | h)
      · exact ih (n / 10) h
      · exact digitOf_ne_colon (n % 10) h.symm

theorem padStart2_no_colon {l : List Char} (h : ':' ∉ l) : ':' ∉ padStart2 l := by
  unfold padStart2
  simp only [List.mem_append, List.mem_replicate]
  rintro (⟨-, hc⟩ | hc)
  · exact absurd hc (by decide)
  · exact h hc

theorem splitOn_colon (a b : List Char) (ha : ':' ∉ a) (hb : ':' ∉ b) :
    (a ++ ':' :: b).splitOn ':' = [a, b] := by
  have h : ([':'].intercalate [a, b]).splitOn ':' = [a, b] :=
    List.splitOn_intercalate [a, b] ':'
      (by
        intro l hl
        rcases List.mem_pair.mp hl with rfl | rfl
        · exact ha
        · exact hb)
      (by simp)
  simpa [List.intercalate, List.intersperse] using h

theorem timeToMinutes_minutesToTime (m : Nat) :
    timeToMinutes (minutesToTime m) = m := by
  unfold timeToMinutes minutesToTime
  have hsplit := splitOn_colon (padStart2 (natStr (m / 60))) (padStart2 (natStr (m % 60)))
    (padStart2_no_colon (natStr_no_colon _)) (padStart2_no_colon (natStr_no_colon _))
  simp only [String.data]
  rw [hsplit]
  simp only [List.headD, List.getD, List.get?, Option.getD_some]
  rw [jsNumber_padStart2_natStr, jsNumber_padStart2_natStr]
  omega

/-! ## The editor's operations -/

/-- The session identity string `` `${taskId}-${sessionNumber}` ``. -/
def sessionKey (taskId : String) (sessionNumber : Nat) : String :=
  taskId ++ "-" ++ natToString sessionNumber

/-- The (planDate, taskId, sessionNumber) key predicate used by
`editSessionTime`'s `findIndex`, `getEditedSession`'s `find` and
`removeEdit`'s `findIndex`. -/
def editMatches (planDate taskId : String) (sessionNumber : Nat)
    (e : SessionTimeEdit) : Bool :=
  e.planDate == planDate && e.taskId == taskId && e.sessionNumber == sessionNumber

/-- `getEditedSession(session, planDate)`: overlay the stored edit, if any. -/
def getEditedSession (edits : List SessionTimeEdit) (session : StudySession)
    (planDate : String) : StudySession :=
  match edits.find? (editMatches planDate session.taskId session.sessionNumber) with
  | some edit => { session with startTime := edit.newStartTime, endTime := edit.newEndTime }
  | none => session

/-- JavaScript `x || y` on an optional string field: an absent field and the
empty string are both falsy and keep the original value. -/
def jsOr (field : Option String) (original : String) : String :=
  match field with
  | some s => if s = "" then original else s
  | none => original

/-- The `.map` step of `getCommitmentsForDate`: apply
`modifiedOccurrences?.[date]` to `startTime` / `endTime` / `title`. -/
def overlayModification (date : String) (c : FixedCommitment) : FixedCommitment :=
  match c.modifiedOccurrences.lookup date with
  | some m =>
    { c with startTime := jsOr m.startTime c.startTime,
             endTime := jsOr m.endTime c.endTime,
             title := jsOr m.title c.title }
  | none => c

/-- The `.filter` step of `getCommitmentsForDate`: skip deleted occurrences,
then recurring-weekday or specific-date membership. -/
def commitmentOnDate (env : EditorEnv) (date : String) (c : FixedCommitment) : Bool :=
  if c.deletedOccurrences.contains date then false
  else if c.recurring then c.daysOfWeek.contains (env.getDay date)
  else c.specificDates.contains date

/-- `getCommitmentsForDate(date)`: filter then overlay, in input order. -/
def getCommitmentsForDate (env : EditorEnv) (date : String) : List FixedCommitment :=
  (env.fixedCommitments.filter (commitmentOnDate env date)).map (overlayModification date)

/-- Which check of `checkTimeConflict` failed, with the data its reason
string reports. -/
inductive ConflictKind where
  | window
  | workday
  | sessionOverlap (editedSession : StudySession)
  | commitmentOverlap (commitment : FixedCommitment)
deriving DecidableEq, Repr

/-- The `for (const session of plan.plannedTasks)` loop of
`checkTimeConflict`: skip the excluded / skipped / done sessions, apply
edits, and return the first (edited) session that overlaps. -/
def sessionOverlapScan (edits : List SessionTimeEdit) (planDate : String)
    (startMinutes newEndMinutes : Nat) (excludeSessionId : String) :
    List StudySession → Option StudySession
  | [] => none
  | session :: rest =>
    if sessionKey session.taskId session.sessionNumber == excludeSessionId
        || session.status == "skipped" || session.done then
      sessionOverlapScan edits planDate startMinutes newEndMinutes excludeSessionId rest
    else
      let editedSession := getEditedSession edits session planDate
      if startMinutes < timeToMinutes editedSession.endTime
          && newEndMinutes > timeToMinutes editedSession.startTime then
        some editedSession
      else
        sessionOverlapScan edits planDate startMinutes newEndMinutes excludeSessionId rest

/-- The `for (const commitment of dayCommitments)` loop of
`checkTimeConflict`: return the first overlapping commitment. -/
def commitmentOverlapScan (startMinutes newEndMinutes : Nat) :
    List FixedCommitment → Option FixedCommitment
  | [] => none
  | c :: rest =>
    if startMinutes < timeToMinutes c.endTime
        && newEndMinutes > timeToMinutes c.startTime then
      some c
    else commitmentOverlapScan startMinutes newEndMinutes rest

/-- The check sequence of `checkTimeConflict` (lines 40-105): study window,
work day, session overlap on the date's plan, commitment overlap; the first
failing check is returned.  The suggestion lists of the returned record are
added on top by `checkTimeConflict` below, so that the recursion of the
source (`checkTimeConflict` → `generateSuggestedTimes` →
`checkTimeConflict(..., false)`) is well-founded by construction. -/
def firstConflict (env : EditorEnv) (edits : List SessionTimeEdit)
    (planDate newStartTime : String) (durationMinutes : Nat)
    (excludeSessionId : String) : Option ConflictKind :=
  let startMinutes := timeToMinutes newStartTime
  let newEndMinutes := startMinutes + durationMinutes
  let studyStart := env.settings.studyWindowStartHour * 60
  let studyEnd := env.settings.studyWindowEndHour * 60
  if startMinutes < studyStart || newEndMinutes > studyEnd then
    some ConflictKind.window
  else if !(env.settings.workDays.contains (env.getDay planDate)) then
    some ConflictKind.workday
  else
    let planSessions :=
      match env.studyPlans.find? (fun p => p.date == planDate) with
      | some plan => plan.plannedTasks
      | none => []
    match sessionOverlapScan edits planDate startMinutes newEndMinutes
        excludeSessionId planSessions with
    | some es => some (ConflictKind.sessionOverlap es)
    | none =>
      match commitmentOverlapScan startMinutes newEndMinutes
          (getCommitmentsForDate env planDate) with
      | some c => some (ConflictKind.commitmentOverlap c)
      | none => none

/-- The `conflictsWith` string each failing check produces. -/
def conflictReason (settings : UserSettings) : ConflictKind → String
  | ConflictKind.window =>
    "Outside study window (" ++ natToString settings.studyWindowStartHour
      ++ ":00 - " ++ natToString settings.studyWindowEndHour ++ ":00)"
  | ConflictKind.workday => "Not a work day"
  | ConflictKind.sessionOverlap es =>
    "Overlaps with " ++ es.taskId ++ " session (" ++ es.startTime ++ " - "
      ++ es.endTime ++ ")"
  | ConflictKind.commitmentOverlap c =>
    "Overlaps with " ++ c.title ++ " (" ++ c.startTime ++ " - " ++ c.endTime ++ ")"

/-- The start minutes visited by `generateSuggestedTimes`'s loop
`for (minutes = studyStart; minutes <= studyEnd - sessionMinutes; minutes += 30)`
(JavaScript subtraction can go negative, hence the guard). -/
def suggestionCandidates (settings : UserSettings) (durationMinutes : Nat) : List Nat :=
  let studyStart := settings.studyWindowStartHour * 60
  let studyEnd := settings.studyWindowEndHour * 60
  if studyStart + durationMinutes ≤ studyEnd then
    (List.range ((studyEnd - durationMinutes - studyStart) / 30 + 1)).map
      (fun k => studyStart + 30 * k)
  else []

/-- The body of `generateSuggestedTimes`'s loop: collect conflict-free
starts, breaking once 3 are collected. -/
def suggestLoop (conflictAt : Nat → Bool) : List Nat → List String → List String
  | [], suggestions => suggestions
  | m :: rest, suggestions =>
    if conflictAt m then suggestLoop conflictAt rest suggestions
    else
      let suggestions' := suggestions ++ [minutesToTime m]
      if 3 ≤ suggestions'.length then suggestions'
      else suggestLoop conflictAt rest suggestions'

/-- `generateSuggestedTimes(planDate, sessionDuration, excludeSessionId)`.
The nested `checkTimeConflict(..., includeSuggestions := false)` call of the
source only inspects `hasConflict`, which equals
`(firstConflict ...).isSome` (theorem `checkTimeConflict_hasConflict`). -/
def generateSuggestedTimes (env : EditorEnv) (edits : List SessionTimeEdit)
    (planDate : String) (durationMinutes : Nat) (excludeSessionId : String) :
    List String :=
  suggestLoop
    (fun m => (firstConflict env edits planDate (minutesToTime m) durationMinutes
      excludeSessionId).isSome)
    (suggestionCandidates env.settings durationMinutes) []

/-- Return type of `checkTimeConflict`; absent record fields are `none`. -/
structure ConflictResult where
  hasConflict : Bool
  conflictsWith : Option String := none
  suggestedTimes : Option (List String) := none
deriving DecidableEq, Repr

/-- `checkTimeConflict(planDate, newStartTime, sessionDuration,
excludeSessionId, includeSuggestions)`: the first failing check's reason,
with a suggestion list for every conflict except the work-day one (whose
branch hard-codes `suggestedTimes: []`), gated by `includeSuggestions`. -/
def checkTimeConflict (env : EditorEnv) (edits : List SessionTimeEdit)
    (planDate newStartTime : String) (durationMinutes : Nat)
    (excludeSessionId : String) (includeSuggestions : Bool) : ConflictResult :=
  match firstConflict env edits planDate newStartTime durationMinutes excludeSessionId with
  | some ConflictKind.workday =>
    { hasConflict := true,
      conflictsWith := some (conflictReason env.settings ConflictKind.workday),
      suggestedTimes := some [] }
  | some k =>
    { hasConflict := true,
      conflictsWith := some (conflictReason env.settings k),
      suggestedTimes := some (if includeSuggestions then
        generateSuggestedTimes env edits planDate durationMinutes excludeSessionId
        else []) }
  | none => { hasConflict := false }

/-- Return type of `editSessionTime`. -/
structure EditResult where
  success : Bool
  error : Option String := none
deriving DecidableEq, Repr

/-- `findSession(planDate, taskId, sessionNumber)`. -/
def findSession (env : EditorEnv) (planDate taskId : String)
    (sessionNumber : Nat) : Option StudySession :=
  match env.studyPlans.find? (fun p => p.date == planDate) with
  | some plan =>
    plan.plannedTasks.find? (fun s => s.taskId == taskId && s.sessionNumber == sessionNumber)
  | none => none

/-- `editSessionTime(planDate, taskId, sessionNumber, newStartTime,
sessionDuration)`.  `freshId` stands for the generated `` `edit-${Date.now()}` ``
and `editedAt` for `new Date().toISOString()`; the updated edit log is
returned alongside the result (the source mutates `this.sessionTimeEdits`
and persists it). -/
def editSessionTime (env : EditorEnv) (edits : List SessionTimeEdit)
    (planDate taskId : String) (sessionNumber : Nat) (newStartTime : String)
    (durationMinutes : Nat) (freshId editedAt : String) :
    EditResult × List SessionTimeEdit :=
  let sessionId := sessionKey taskId sessionNumber
  let conflictCheck := checkTimeConflict env edits planDate newStartTime durationMinutes
    sessionId true
  if conflictCheck.hasConflict then
    ({ success := false, error := conflictCheck.conflictsWith }, edits)
  else
    let newEndTime := minutesToTime (timeToMinutes newStartTime + durationMinutes)
    let existingEditIndex := edits.findIdx? (editMatches planDate taskId sessionNumber)
    match findSession env planDate taskId sessionNumber with
    | none => ({ success := false, error := some "Session not found" }, edits)
    | some session =>
      let edit : SessionTimeEdit :=
        { id := match existingEditIndex with
                | some i => ((edits.get? i).map (fun e => e.id)).getD freshId
                | none => freshId,
          planDate := planDate, taskId := taskId, sessionNumber := sessionNumber,
          originalStartTime := session.startTime,
          newStartTime := newStartTime, newEndTime := newEndTime,
          editedAt := editedAt, isTemporary := true }
      match existingEditIndex with
      | some i => ({ success := true }, edits.set i edit)
      | none => ({ success := true }, edits ++ [edit])

/-- `removeEdit(planDate, taskId, sessionNumber)`: `splice` out the first
matching edit; report whether one existed. -/
def removeEdit (edits : List SessionTimeEdit) (planDate taskId : String)
    (sessionNumber : Nat) : Bool × List SessionTimeEdit :=
  match edits.findIdx? (editMatches planDate taskId sessionNumber) with
  | some i => (true, edits.eraseIdx i)
  | none => (false, edits)

/-- The constructor's load of `'timepilot-session-time-edits'`: `payload`
is the stored string (or `none` when the key is absent) and `parse` models
`JSON.parse` (`none` = throw); a failed parse is caught and the log starts
empty. -/
def loadSessionTimeEdits (payload : Option String)
    (parse : String → Option (List SessionTimeEdit)) : List SessionTimeEdit :=
  match payload with
  | none => []
  | some s =>
    match parse s with
    | some edits => edits
    | none => []

/-! ## Specification-side description of the conflict check

These definitions follow the wording of the specification (§4.3): the four
checks in precedence order, the exclusion of the edited / skipped / done
sessions, edits applied before testing, and the half-open interval test
`candidateStart < otherEnd AND candidateEnd > otherStart`, phrased with
`filter` / `map` / `find?` rather than the source's loop. -/

/-- Half-open interval overlap, exactly as the spec spells it. -/
def specOverlaps (candidateStart candidateEnd otherStart otherEnd : Nat) : Bool :=
  candidateStart < otherEnd && candidateEnd > otherStart

/-- A session participates in the overlap check unless it is the excluded
one, its status is `skipped`, or it is marked done. -/
def specActiveSession (excludeSessionKey : String) (s : StudySession) : Bool :=
  !(sessionKey s.taskId s.sessionNumber == excludeSessionKey
    || s.status == "skipped" || s.done)

/-- The conflict check as the specification words it: first failing check
in the order study-window, work-day, session-overlap (first overlapping
active session, edits applied first), commitment-overlap (first overlapping
effective commitment). -/
def specCheckConflict (env : EditorEnv) (edits : List SessionTimeEdit)
    (planDate candidateStartTime : String) (durationMinutes : Nat)
    (excludeSessionKey : String) : Option ConflictKind :=
  let candidateStart := timeToMinutes candidateStartTime
  let candidateEnd := candidateStart + durationMinutes
  if candidateStart < env.settings.studyWindowStartHour * 60
      || candidateEnd > env.settings.studyWindowEndHour * 60 then
    some ConflictKind.window
  else if !(env.settings.workDays.contains (env.getDay planDate)) then
    some ConflictKind.workday
  else
    let sessions :=
      ((env.studyPlans.find? (fun p => p.date == planDate)).map
        (fun p => p.plannedTasks)).getD []
    match ((sessions.filter (specActiveSession excludeSessionKey)).map
        (fun s => getEditedSession edits s planDate)).find?
        (fun other => specOverlaps candidateStart candidateEnd
          (timeToMinutes other.startTime) (timeToMinutes other.endTime)) with
    | some other => some (ConflictKind.sessionOverlap other)
    | none =>
      match (getCommitmentsForDate env planDate).find?
          (fun c => specOverlaps candidateStart candidateEnd
            (timeToMinutes c.startTime) (timeToMinutes c.endTime)) with
      | some c => some (ConflictKind.commitmentOverlap c)
      | none => none

/-! ## Helper lemmas -/

theorem sessionOverlapScan_eq_find (edits : List SessionTimeEdit)
    (planDate : String) (sm em : Nat) (ex : String) (l : List StudySession) :
    sessionOverlapScan edits planDate sm em ex l
      = ((l.filter (specActiveSession ex)).map
          (fun s => getEditedSession edits s planDate)).find?
          (fun other => specOverlaps sm em
            (timeToMinutes other.startTime) (timeToMinutes other.endTime)) := by
  induction l with
  | nil => rfl
  | cons s rest ih =>
    by_cases hskip : (sessionKey s.taskId s.sessionNumber == ex
        || s.status == "skipped" || s.done) = true
    · have hact : specActiveSession ex s = false := by
        simp [specActiveSession, hskip]
      simp only [sessionOverlapScan, hskip, if_true, List.filter_cons, hact,
        Bool.false_eq_true, if_false]
      exact ih
    · have hact : specActiveSession ex s = true := by
        simp only [specActiveSession]
        simp only [Bool.not_eq_true] at hskip
        simp [hskip]
      rw [sessionOverlapScan, if_neg hskip]
      simp only [List.filter_cons, hact, if_true, List.map_cons, List.find?_cons]
      by_cases hov : (sm < timeToMinutes (getEditedSession edits s planDate).endTime
          && em > timeToMinutes (getEditedSession edits s planDate).startTime) = true
      · simp only [hov, if_true]
        rw [show specOverlaps sm em
            (timeToMinutes (getEditedSession edits s planDate).startTime)
            (timeToMinutes (getEditedSession edits s planDate).endTime) = true from hov]
      · simp only [hov, if_false]
        rw [show specOverlaps sm em
            (timeToMinutes (getEditedSession edits s planDate).startTime)
            (timeToMinutes (getEditedSession edits s planDate).endTime) = false from
          Bool.not_eq_true _ ▸ hov]
        exact ih

theorem commitmentOverlapScan_eq_find (sm em : Nat) (l : List FixedCommitment) :
    commitmentOverlapScan sm em l
      = l.find? (fun c => specOverlaps sm em
          (timeToMinutes c.startTime) (timeToMinutes c.endTime)) := by
  induction l with
  | nil => rfl
  | cons c rest ih =>
    rw [commitmentOverlapScan, List.find?_cons]
    by_cases hov : (sm < timeToMinutes c.endTime && em > timeToMinutes c.startTime) = true
    · simp only [hov, if_true]
      rw [show specOverlaps sm em (timeToMinutes c.startTime) (timeToMinutes c.endTime)
          = true from hov]
    · simp only [hov, if_false]
      rw [show specOverlaps sm em (timeToMinutes c.startTime) (timeToMinutes c.endTime)
          = false from Bool.not_eq_true _ ▸ hov]
      exact ih

theorem firstConflict_eq_specCheckConflict (env : EditorEnv)
    (edits : List SessionTimeEdit) (planDate newStartTime : String)
    (durationMinutes : Nat) (excludeSessionId : String) :
    firstConflict env edits planDate newStartTime durationMinutes excludeSessionId
      = specCheckConflict env edits planDate newStartTime durationMinutes
          excludeSessionId := by
  unfold firstConflict specCheckConflict
  simp only [sessionOverlapScan_eq_find, commitmentOverlapScan_eq_find]
  rcases h : env.studyPlans.find? (fun p => p.date == planDate) with _ | plan <;>
    simp [h]

theorem checkTimeConflict_hasConflict (env : EditorEnv)
    (edits : List SessionTimeEdit) (planDate newStartTime : String)
    (durationMinutes : Nat) (excludeSessionId : String) (b : Bool) :
    (checkTimeConflict env edits planDate newStartTime durationMinutes
        excludeSessionId b).hasConflict
      = (firstConflict env edits planDate newStartTime durationMinutes
          excludeSessionId).isSome := by
  unfold checkTimeConflict
  rcases h : firstConflict env edits planDate newStartTime durationMinutes
      excludeSessionId with _ | k
  · rfl
  · cases k <;> rfl

theorem checkTimeConflict_conflictsWith (env : EditorEnv)
    (edits : List SessionTimeEdit) (planDate newStartTime : String)
    (durationMinutes : Nat) (excludeSessionId : String) (b : Bool) :
    (checkTimeConflict env edits planDate newStartTime durationMinutes
        excludeSessionId b).conflictsWith
      = (firstConflict env edits planDate newStartTime durationMinutes
          excludeSessionId).map (conflictReason env.settings) := by
  unfold checkTimeConflict
  rcases h : firstConflict env edits planDate newStartTime durationMinutes
      excludeSessionId with _ | k
  · rfl
  · cases k <;> rfl

/-- **C1.**  For every date, candidate start time, duration, excluded
session key, and suggestion flag, `checkTimeConflict` reports exactly the
first failing check of the specification's precedence order (study-window,
work-day, session-overlap, commitment-overlap), where the session-overlap
check skips the excluded session and every skipped or done session,
applies stored time edits before testing, and uses the half-open test
`candidateStart < otherEnd AND candidateEnd > otherStart`; exactly that
check's reason is reported. -/
theorem checkTimeConflict_first_failing_check (env : EditorEnv)
    (edits : List SessionTimeEdit) (planDate newStartTime : String)
    (durationMinutes : Nat) (excludeSessionId : String) (b : Bool) :
    (checkTimeConflict env edits planDate newStartTime durationMinutes
        excludeSessionId b).hasConflict
      = (specCheckConflict env edits planDate newStartTime durationMinutes
          excludeSessionId).isSome
    ∧ (checkTimeConflict env edits planDate newStartTime durationMinutes
        excludeSessionId b).conflictsWith
      = (specCheckConflict env edits planDate newStartTime durationMinutes
          excludeSessionId).map (conflictReason env.settings) := by
  rw [checkTimeConflict_hasConflict, checkTimeConflict_conflictsWith,
    firstConflict_eq_specCheckConflict]
  exact ⟨rfl, rfl⟩

theorem suggestLoop_eq_take (conflictAt : Nat → Bool) :
    ∀ (l : List Nat) (acc : List String), acc.length < 3 →
      suggestLoop conflictAt l acc
        = acc ++ (((l.filter (fun m => !conflictAt m)).map minutesToTime).take
            (3 - acc.length)) := by
  intro l
  induction l with
  | nil => intro acc _; simp [suggestLoop]
  | cons m rest ih =>
    intro acc h
    by_cases hc : conflictAt m = true
    · simp only [suggestLoop, hc, if_true, List.filter_cons, Bool.not_true,
        Bool.false_eq_true, if_false]
      exact ih acc h
    · have hkeep : (!conflictAt m) = true := by simp [hc]
      simp only [suggestLoop, hc, Bool.false_eq_true, if_false, List.filter_cons,
        hkeep, if_true, List.map_cons]
      by_cases hlen : 3 ≤ acc.length + 1
      · have h2 : acc.length = 2 := by omega
        have h3 : 3 - acc.length = 1 := by omega
        simp [h2, h3, List.length_append]
      · have hlt : (acc ++ [minutesToTime m]).length < 3 := by
          simp only [List.length_append, List.length_cons, List.length_nil]
          omega
        have hrw : ¬ 3 ≤ (acc ++ [minutesToTime m]).length := by
          simp only [List.length_append, List.length_cons, List.length_nil]
          omega
        rw [if_neg hrw, ih _ hlt]
        have hsub : 3 - acc.length = (3 - (acc ++ [minutesToTime m]).length) + 1 := by
          simp only [List.length_append, List.length_cons, List.length_nil]
          omega
        rw [hsub]
        simp [List.take_succ_cons, List.append_assoc]

theorem mem_suggestionCandidates (settings : UserSettings)
    (durationMinutes m : Nat) :
    m ∈ suggestionCandidates settings durationMinutes ↔
      (settings.studyWindowStartHour * 60 ≤ m
        ∧ m + durationMinutes ≤ settings.studyWindowEndHour * 60
        ∧ 30 ∣ (m - settings.studyWindowStartHour * 60)) := by
  unfold suggestionCandidates
  set A := settings.studyWindowStartHour * 60 with hA
  set B := settings.studyWindowEndHour * 60 with hB
  by_cases hcond : A + durationMinutes ≤ B
  · simp only [hcond, if_true, List.mem_map, List.mem_range]
    constructor
    · rintro ⟨k, hk, rfl⟩
      have hkle : k ≤ (B - durationMinutes - A) / 30 := by omega
      have h30 : k * 30 ≤ B - durationMinutes - A :=
        (Nat.le_div_iff_mul_le (by norm_num)).mp hkle
      exact ⟨by omega, by omega, ⟨k, by omega⟩⟩
    · rintro ⟨h1, h2, k, hk⟩
      have h30 : k * 30 ≤ B - durationMinutes - A := by omega
      have hkle : k ≤ (B - durationMinutes - A) / 30 :=
        (Nat.le_div_iff_mul_le (by norm_num)).mpr h30
      exact ⟨k, by omega, by omega⟩
  · simp only [hcond, if_false, List.not_mem_nil, false_iff]
    rintro ⟨h1, h2, -⟩
    omega

/-- **C2.**  The suggestion generator scans exactly the start minutes from
`studyWindowStartHour*60` up to `studyWindowEndHour*60` minus the duration
in fixed 30-minute steps, keeps the conflict-free ones in scan order,
truncates to the first 3 (stopping as soon as 3 are collected), and every
returned candidate passes `checkTimeConflict` with no conflict when
independently re-checked with the same date, duration, and excluded key. -/
theorem generateSuggestedTimes_spec (env : EditorEnv) (edits : List SessionTimeEdit)
    (planDate : String) (durationMinutes : Nat) (excludeSessionId : String) :
    (∀ m, m ∈ suggestionCandidates env.settings durationMinutes ↔
      (env.settings.studyWindowStartHour * 60 ≤ m
        ∧ m + durationMinutes ≤ env.settings.studyWindowEndHour * 60
        ∧ 30 ∣ (m - env.settings.studyWindowStartHour * 60)))
    ∧ generateSuggestedTimes env edits planDate durationMinutes excludeSessionId
        = (((suggestionCandidates env.settings durationMinutes).filter
            (fun m => !(checkTimeConflict env edits planDate (minutesToTime m)
              durationMinutes excludeSessionId false).hasConflict)).map
            minutesToTime).take 3
    ∧ (generateSuggestedTimes env edits planDate durationMinutes
        excludeSessionId).length ≤ 3
    ∧ ∀ t ∈ generateSuggestedTimes env edits planDate durationMinutes excludeSessionId,
        ∀ b : Bool,
          (checkTimeConflict env edits planDate t durationMinutes
            excludeSessionId b).hasConflict = false := by
  have hpred : (fun m => !(checkTimeConflict env edits planDate (minutesToTime m)
        durationMinutes excludeSessionId false).hasConflict)
      = (fun m => !(firstConflict env edits planDate (minutesToTime m)
        durationMinutes excludeSessionId).isSome) := by
    funext m
    rw [checkTimeConflict_hasConflict]
  have hmain : generateSuggestedTimes env edits planDate durationMinutes excludeSessionId
      = (((suggestionCandidates env.settings durationMinutes).filter
          (fun m => !(checkTimeConflict env edits planDate (minutesToTime m)
            durationMinutes excludeSessionId false).hasConflict)).map
          minutesToTime).take 3 := by
    rw [hpred]
    unfold generateSuggestedTimes
    rw [suggestLoop_eq_take _ _ [] (by norm_num)]
    simp
  refine ⟨fun m => mem_suggestionCandidates env.settings durationMinutes m, hmain, ?_, ?_⟩
  · rw [hmain]
    exact le_trans (List.length_take_le 3 _) (le_refl 3)
  · intro t ht b
    rw [hmain] at ht
    have ht' := List.mem_of_mem_take ht
    obtain ⟨m, hm, rfl⟩ := List.mem_map.mp ht'
    have hfree := (List.mem_filter.mp hm).2
    rw [checkTimeConflict_hasConflict] at hfree
    rw [checkTimeConflict_hasConflict]
    simpa using hfree

theorem find?_set_of_findIdx? {α : Type} (p : α → Bool) :
    ∀ (l : List α) (i : Nat) (e : α), l.findIdx? p = some i → p e = true →
      (l.set i e).find? p = some e := by
  intro l
  induction l with
  | nil => intro i e h _; simp at h
  | cons a l ih =>
    intro i e h he
    rw [List.findIdx?_cons] at h
    by_cases hpa : p a = true
    · rw [if_pos hpa] at h
      obtain rfl : i = 0 := by simpa using h.symm
      simp [List.find?_cons, he]
    · rw [if_neg hpa, List.findIdx?_start_succ] at h
      obtain ⟨j, hj, rfl⟩ := Option.map_eq_some'.mp h
      have hpa' : p a = false := by simpa using hpa
      rw [List.set_cons_succ, List.find?_cons, hpa']
      exact ih j e hj he

theorem find?_append_singleton_of_none {α : Type} (p : α → Bool) (l : List α) (e : α)
    (h : l.findIdx? p = none) (he : p e = true) : (l ++ [e]).find? p = some e := by
  rw [List.find?_append, List.find?_eq_none.mpr, Option.none_or]
  · simp [List.find?_cons, he]
  · intro x hx
    simpa using List.findIdx?_eq_none_iff.mp h x hx

theorem filter_set_singleton {α : Type} (p : α → Bool) :
    ∀ (l : List α) (i : Nat) (e : α), l.findIdx? p = some i → p e = true →
      (l.filter p).length ≤ 1 → (l.set i e).filter p = [e] := by
  intro l
  induction l with
  | nil => intro i e h _ _; simp at h
  | cons a l ih =>
    intro i e h he hlen
    rw [List.findIdx?_cons] at h
    by_cases hpa : p a = true
    · rw [if_pos hpa] at h
      obtain rfl : i = 0 := by simpa using h.symm
      rw [List.filter_cons_of_pos hpa] at hlen
      have hlen0 : (l.filter p).length = 0 := by
        simp only [List.length_cons] at hlen
        omega
      have hnil : l.filter p = [] := List.length_eq_zero.mp hlen0
      simp [List.filter_cons, he, hnil]
    · rw [if_neg hpa, List.findIdx?_start_succ] at h
      obtain ⟨j, hj, rfl⟩ := Option.map_eq_some'.mp h
      rw [List.filter_cons_of_neg hpa] at hlen
      rw [List.set_cons_succ, List.filter_cons_of_neg hpa]
      exact ih j e hj he hlen

theorem filter_eraseIdx_tail {α : Type} (p : α → Bool) :
    ∀ (l : List α) (i : Nat), l.findIdx? p = some i →
      (l.eraseIdx i).filter p = (l.filter p).tail := by
  intro l
  induction l with
  | nil => intro i h; simp at h
  | cons a l ih =>
    intro i h
    rw [List.findIdx?_cons] at h
    by_cases hpa : p a = true
    · rw [if_pos hpa] at h
      obtain rfl : i = 0 := by simpa using h.symm
      simp [List.filter_cons_of_pos hpa]
    · rw [if_neg hpa, List.findIdx?_start_succ] at h
      obtain ⟨j, hj, rfl⟩ := Option.map_eq_some'.mp h
      rw [List.eraseIdx_cons_succ, List.filter_cons_of_neg hpa,
        List.filter_cons_of_neg hpa]
      exact ih j hj

/-- The upserted edit record that a successful `editSessionTime` stores. -/
theorem editSessionTime_success_log (env : EditorEnv) (edits : List SessionTimeEdit)
    (planDate taskId : String) (sessionNumber : Nat) (newStartTime : String)
    (durationMinutes : Nat) (freshId editedAt : String)
    (hsucc : (editSessionTime env edits planDate taskId sessionNumber newStartTime
      durationMinutes freshId editedAt).1.success = true) :
    ∃ edit : SessionTimeEdit,
      edit.planDate = planDate ∧ edit.taskId = taskId
      ∧ edit.sessionNumber = sessionNumber
      ∧ edit.newStartTime = newStartTime
      ∧ edit.newEndTime = minutesToTime (timeToMinutes newStartTime + durationMinutes)
      ∧ ((∃ i, edits.findIdx? (editMatches planDate taskId sessionNumber) = some i
            ∧ (editSessionTime env edits planDate taskId sessionNumber newStartTime
                durationMinutes freshId editedAt).2 = edits.set i edit)
        ∨ (edits.findIdx? (editMatches planDate taskId sessionNumber) = none
            ∧ (editSessionTime env edits planDate taskId sessionNumber newStartTime
                durationMinutes freshId editedAt).2 = edits ++ [edit])) := by
  by_cases hc : (checkTimeConflict env edits planDate newStartTime durationMinutes
      (sessionKey taskId sessionNumber) true).hasConflict = true
  · exfalso
    simp [editSessionTime, hc] at hsucc
  · rcases hfs : findSession env planDate taskId sessionNumber with _ | session
    · exfalso
      simp [editSessionTime, hc, hfs] at hsucc
    · rcases hidx : edits.findIdx? (editMatches planDate taskId sessionNumber)
        with _ | i
      · refine
          ⟨{ id := freshId, planDate := planDate, taskId := taskId,
             sessionNumber := sessionNumber, originalStartTime := session.startTime,
             newStartTime := newStartTime,
             newEndTime := minutesToTime (timeToMinutes newStartTime + durationMinutes),
             editedAt := editedAt, isTemporary := true },
           rfl, rfl, rfl, rfl, rfl, Or.inr ⟨rfl, ?_⟩⟩
        simp [editSessionTime, hc, hfs, hidx]
      · refine
          ⟨{ id := ((edits.get? i).map (fun e => e.id)).getD freshId,
             planDate := planDate, taskId := taskId,
             sessionNumber := sessionNumber, originalStartTime := session.startTime,
             newStartTime := newStartTime,
             newEndTime := minutesToTime (timeToMinutes newStartTime + durationMinutes),
             editedAt := editedAt, isTemporary := true },
           rfl, rfl, rfl, rfl, rfl, Or.inl ⟨i, rfl, ?_⟩⟩
        simp [editSessionTime, hc, hfs, hidx]

/-- The stored edit always satisfies the key predicate it is filed under. -/
theorem editMatches_of_key (planDate taskId : String) (sessionNumber : Nat)
    (e : SessionTimeEdit) (h1 : e.planDate = planDate) (h2 : e.taskId = taskId)
    (h3 : e.sessionNumber = sessionNumber) :
    editMatches planDate taskId sessionNumber e = true := by
  simp [editMatches, h1, h2, h3]

/-- **C3.**  If `editSessionTime(date, taskId, sessionNumber, newStart,
duration)` succeeds, then `getEditedSession` applied to that session and
date afterwards returns a session whose `startTime` equals `newStart` and
whose `endTime` equals `newStart` plus the duration (round-trip preserving
`endTime = startTime + allocatedHours`). -/
theorem editSessionTime_getEditedSession_roundtrip (env : EditorEnv)
    (edits : List SessionTimeEdit) (planDate taskId : String) (sessionNumber : Nat)
    (newStartTime : String) (durationMinutes : Nat) (freshId editedAt : String)
    (session : StudySession) (hT : session.taskId = taskId)
    (hN : session.sessionNumber = sessionNumber)
    (hsucc : (editSessionTime env edits planDate taskId sessionNumber newStartTime
      durationMinutes freshId editedAt).1.success = true) :
    (getEditedSession (editSessionTime env edits planDate taskId sessionNumber
        newStartTime durationMinutes freshId editedAt).2 session planDate).startTime
      = newStartTime
    ∧ timeToMinutes (getEditedSession (editSessionTime env edits planDate taskId
        sessionNumber newStartTime durationMinutes freshId editedAt).2 session
        planDate).endTime
      = timeToMinutes newStartTime + durationMinutes := by
  obtain ⟨edit, hpd, htid, hsn, hns, hne, hlog⟩ :=
    editSessionTime_success_log env edits planDate taskId sessionNumber newStartTime
      durationMinutes freshId editedAt hsucc
  have hpe : editMatches planDate taskId sessionNumber edit = true :=
    editMatches_of_key _ _ _ _ hpd htid hsn
  have hfind : (editSessionTime env edits planDate taskId sessionNumber newStartTime
      durationMinutes freshId editedAt).2.find?
      (editMatches planDate session.taskId session.sessionNumber) = some edit := by
    rw [hT, hN]
    rcases hlog with ⟨i, hidx, hset⟩ | ⟨hidx, happ⟩
    · rw [hset]
      exact find?_set_of_findIdx? _ edits i edit hidx hpe
    · rw [happ]
      exact find?_append_singleton_of_none _ edits edit hidx hpe
  unfold getEditedSession
  rw [hfind]
  refine ⟨hns, ?_⟩
  show timeToMinutes edit.newEndTime = _
  rw [hne, timeToMinutes_minutesToTime]

/-- **C4.**  When the conflict check reports a conflict for the candidate
time, `editSessionTime` returns `success = false` with the checker's reason
as the error, and the edit log is returned exactly as it was. -/
theorem editSessionTime_conflict_unchanged (env : EditorEnv)
    (edits : List SessionTimeEdit) (planDate taskId : String) (sessionNumber : Nat)
    (newStartTime : String) (durationMinutes : Nat) (freshId editedAt : String)
    (hc : (checkTimeConflict env edits planDate newStartTime durationMinutes
      (sessionKey taskId sessionNumber) true).hasConflict = true) :
    editSessionTime env edits planDate taskId sessionNumber newStartTime
        durationMinutes freshId editedAt
      = ({ success := false,
           error := (checkTimeConflict env edits planDate newStartTime durationMinutes
             (sessionKey taskId sessionNumber) true).conflictsWith }, edits) := by
  unfold editSessionTime
  rw [if_pos hc]

/-- **C10.**  When the target session does not exist in the plan,
`editSessionTime` still runs the conflict check first: a conflicting
candidate yields the checker's reason (and no change), and the
`"Session not found"` error only arises for a conflict-free candidate. -/
theorem editSessionTime_conflict_before_not_found (env : EditorEnv)
    (edits : List SessionTimeEdit) (planDate taskId : String) (sessionNumber : Nat)
    (newStartTime : String) (durationMinutes : Nat) (freshId editedAt : String)
    (hfs : findSession env planDate taskId sessionNumber = none) :
    ((checkTimeConflict env edits planDate newStartTime durationMinutes
        (sessionKey taskId sessionNumber) true).hasConflict = true →
      editSessionTime env edits planDate taskId sessionNumber newStartTime
          durationMinutes freshId editedAt
        = ({ success := false,
             error := (checkTimeConflict env edits planDate newStartTime
               durationMinutes (sessionKey taskId sessionNumber) true).conflictsWith },
           edits))
    ∧ ((checkTimeConflict env edits planDate newStartTime durationMinutes
        (sessionKey taskId sessionNumber) true).hasConflict = false →
      editSessionTime env edits planDate taskId sessionNumber newStartTime
          durationMinutes freshId editedAt
        = ({ success := false, error := some "Session not found" }, edits)) := by
  constructor
  · intro hc
    unfold editSessionTime
    rw [if_pos hc]
  · intro hc
    unfold editSessionTime
    rw [if_neg (by rw [hc]; exact Bool.false_ne_true), hfs]

/-- **C7.**  After a successful `editSessionTime`, `removeEdit` on the same
key returns `true` and a subsequent `getEditedSession` returns the input
session unchanged (original pre-edit times); `removeEdit` on a key with no
stored edit returns `false` and leaves the log untouched.  The hypothesis
`hdup` states the log invariant that at most one edit exists per key (which
every editor operation preserves, starting from an empty log). -/
theorem removeEdit_after_edit_reverts (env : EditorEnv) (edits : List SessionTimeEdit)
    (planDate taskId : String) (sessionNumber : Nat) (newStartTime : String)
    (durationMinutes : Nat) (freshId editedAt : String) (session : StudySession)
    (hT : session.taskId = taskId) (hN : session.sessionNumber = sessionNumber)
    (hdup : (edits.filter (editMatches planDate taskId sessionNumber)).length ≤ 1)
    (hsucc : (editSessionTime env edits planDate taskId sessionNumber newStartTime
      durationMinutes freshId editedAt).1.success = true) :
    ((removeEdit (editSessionTime env edits planDate taskId sessionNumber newStartTime
        durationMinutes freshId editedAt).2 planDate taskId sessionNumber).1 = true
      ∧ getEditedSession (removeEdit (editSessionTime env edits planDate taskId
          sessionNumber newStartTime durationMinutes freshId editedAt).2 planDate
          taskId sessionNumber).2 session planDate = session)
    ∧ ∀ edits0 : List SessionTimeEdit,
        (∀ e ∈ edits0, editMatches planDate taskId sessionNumber e = false) →
          removeEdit edits0 planDate taskId sessionNumber = (false, edits0) := by
  constructor
  · obtain ⟨edit, hpd, htid, hsn, hns, hne, hlog⟩ :=
      editSessionTime_success_log env edits planDate taskId sessionNumber newStartTime
        durationMinutes freshId editedAt hsucc
    have hpe : editMatches planDate taskId sessionNumber edit = true :=
      editMatches_of_key _ _ _ _ hpd htid hsn
    set edits1 := (editSessionTime env edits planDate taskId sessionNumber newStartTime
      durationMinutes freshId editedAt).2 with hedits1
    have hfilter1 : edits1.filter (editMatches planDate taskId sessionNumber) = [edit] := by
      rcases hlog with ⟨i, hidx, hset⟩ | ⟨hidx, happ⟩
      · rw [hset]
        exact filter_set_singleton _ edits i edit hidx hpe hdup
      · rw [happ, List.filter_append,
          List.filter_eq_nil_iff.mpr (fun e he => by
            simpa using List.findIdx?_eq_none_iff.mp hidx e he)]
        simp [hpe]
    have hmem : edit ∈ edits1 :=
      List.mem_of_mem_filter (hfilter1 ▸ List.mem_singleton_self edit)
    have hsome : (edits1.findIdx? (editMatches planDate taskId sessionNumber)).isSome
        = true := by
      rw [List.findIdx?_isSome]
      exact List.any_eq_true.mpr ⟨edit, hmem, hpe⟩
    obtain ⟨j, hj⟩ := Option.isSome_iff_exists.mp hsome
    have hremove : removeEdit edits1 planDate taskId sessionNumber
        = (true, edits1.eraseIdx j) := by
      unfold removeEdit
      rw [hj]
    rw [hremove]
    refine ⟨rfl, ?_⟩
    have hfilter2 : (edits1.eraseIdx j).filter
        (editMatches planDate taskId sessionNumber) = [] := by
      rw [filter_eraseIdx_tail _ edits1 j hj, hfilter1]
      rfl
    have hfind : (edits1.eraseIdx j).find?
        (editMatches planDate session.taskId session.sessionNumber) = none := by
      rw [hT, hN]
      exact List.find?_eq_none.mpr (List.filter_eq_nil_iff.mp hfilter2)
    unfold getEditedSession
    rw [hfind]
  · intro edits0 h
    unfold removeEdit
    rw [List.findIdx?_eq_none_iff.mpr h]

/-- **C5 (amended).**  A commitment included on a date that has a
`modifiedOccurrences` entry appears in the resolver's output with `title`,
`startTime` and `endTime` taken from the entry's (truthy) fields and every
other field — in particular `type` — kept at the commitment's original
value; fields missing from the entry keep the original value. -/
theorem getCommitmentsForDate_overlay_mem (env : EditorEnv) (date : String)
    (c : FixedCommitment) (m : OccurrenceModification)
    (hc : c ∈ env.fixedCommitments)
    (hdel : c.deletedOccurrences.contains date = false)
    (hinc : (if c.recurring then c.daysOfWeek.contains (env.getDay date)
      else c.specificDates.contains date) = true)
    (hmod : c.modifiedOccurrences.lookup date = some m) :
    { c with startTime := jsOr m.startTime c.startTime,
             endTime := jsOr m.endTime c.endTime,
             title := jsOr m.title c.title } ∈ getCommitmentsForDate env date := by
  have hon : commitmentOnDate env date c = true := by
    unfold commitmentOnDate
    rw [hdel]
    simpa using hinc
  have hover : overlayModification date c
      = { c with startTime := jsOr m.startTime c.startTime,
                 endTime := jsOr m.endTime c.endTime,
                 title := jsOr m.title c.title } := by
    unfold overlayModification
    rw [hmod]
  unfold getCommitmentsForDate
  exact hover ▸ List.mem_map_of_mem (overlayModification date)
    (List.mem_filter.mpr ⟨hc, hon⟩)

/-- Concrete fixture for the commitment-resolver counterexamples: a
commitment of type `"class"` whose `modifiedOccurrences` entry for the date
carries a different `type`. -/
def typedCommitment : FixedCommitment :=
  { id := "c1", title := "Lecture", startTime := "10:00", endTime := "11:00",
    type := "class", recurring := true, daysOfWeek := [1, 2, 3, 4, 5],
    specificDates := [], deletedOccurrences := [],
    modifiedOccurrences := [("2024-01-08",
      { startTime := none, endTime := none, title := none,
        type := some "appointment" })] }

/-- Environment holding just `typedCommitment`; every date resolves to
weekday 1. -/
def typedEnv : EditorEnv :=
  { studyPlans := [], fixedCommitments := [typedCommitment],
    settings := { studyWindowStartHour := 8, studyWindowEndHour := 20,
                  workDays := [1, 2, 3, 4, 5] },
    getDay := fun _ => 1 }

/-- **C5 (counterexample).**  The claim says the `type` field is overridden
by the `modifiedOccurrences` entry; on `typedCommitment`, whose entry for
2024-01-08 sets `type` to `"appointment"`, the resolver still returns the
original `type` `"class"`. -/
theorem getCommitmentsForDate_type_not_overridden :
    (typedCommitment.modifiedOccurrences.lookup "2024-01-08").map
        (fun m => m.type) = some (some "appointment")
    ∧ (getCommitmentsForDate typedEnv "2024-01-08").map
        (fun c => c.type) = ["class"]
    ∧ "class" ≠ "appointment" := by
  refine ⟨rfl, ?_, by decide⟩
  rfl

/-- **C6 (amended).**  A work-day conflict carries an empty suggestion
list, but — contrary to the claim — a study-window conflict carries the
generated suggestion list exactly as the overlap conflicts do (the window
branch of the source passes `includeSuggestions` through). -/
theorem checkTimeConflict_suggestions_by_kind (env : EditorEnv)
    (edits : List SessionTimeEdit) (planDate newStartTime : String)
    (durationMinutes : Nat) (excludeSessionId : String) :
    (firstConflict env edits planDate newStartTime durationMinutes excludeSessionId
        = some ConflictKind.workday →
      (checkTimeConflict env edits planDate newStartTime durationMinutes
        excludeSessionId true).suggestedTimes = some [])
    ∧ (firstConflict env edits planDate newStartTime durationMinutes excludeSessionId
        = some ConflictKind.window →
      (checkTimeConflict env edits planDate newStartTime durationMinutes
        excludeSessionId true).suggestedTimes
        = some (generateSuggestedTimes env edits planDate durationMinutes
            excludeSessionId)) := by
  constructor
  · intro h
    unfold checkTimeConflict
    rw [h]
  · intro h
    unfold checkTimeConflict
    rw [h]
    rfl

/-- Environment for the window-conflict counterexample: an empty plan and
no commitments, window 08:00-20:00, weekday always 1 (a work day). -/
def openEnv : EditorEnv :=
  { studyPlans := [], fixedCommitments := [],
    settings := { studyWindowStartHour := 8, studyWindowEndHour := 20,
                  workDays := [1, 2, 3, 4, 5] },
    getDay := fun _ => 1 }

/-- **C6 (counterexample).**  A study-window conflict whose result carries
a non-empty suggestion list: starting at 07:00 (before the 08:00 window
opening) with a 60-minute duration reports the window conflict together
with the suggestions 08:00, 08:30, 09:00 — not an empty list as the claim
requires for window conflicts. -/
theorem window_conflict_has_suggestions :
    (checkTimeConflict openEnv [] "2024-01-08" "07:00" 60 "T1-1" true).conflictsWith
        = some "Outside study window (8:00 - 20:00)"
    ∧ (checkTimeConflict openEnv [] "2024-01-08" "07:00" 60 "T1-1" true).suggestedTimes
        = some ["08:00", "08:30", "09:00"] := by
  constructor
  · rfl
  · rfl

/-- **C8 (amended).**  The commitment resolver emits effective commitments
in the relative order in which they appear in the stored commitment list
(filter preserving order, overlay preserving identity) — it does not sort
them by start time. -/
theorem getCommitmentsForDate_preserves_input_order (env : EditorEnv) (date : String) :
    List.Sublist ((getCommitmentsForDate env date).map (fun c => c.id))
      (env.fixedCommitments.map (fun c => c.id)) := by
  unfold getCommitmentsForDate
  rw [List.map_map]
  have hid : ∀ c : FixedCommitment,
      ((fun c => c.id) ∘ overlayModification date) c = c.id := by
    intro c
    unfold Function.comp overlayModification
    rcases c.modifiedOccurrences.lookup date with _ | m <;> rfl
  rw [List.map_congr_left (fun c _ => hid c)]
  exact List.Sublist.map (fun c => c.id) (List.filter_sublist env.fixedCommitments)

/-- Fixture for the sortedness counterexample: two commitments stored with
the later start time first. -/
def unsortedEnv : EditorEnv :=
  { studyPlans := [],
    fixedCommitments :=
      [{ id := "late", title := "Late", startTime := "10:00", endTime := "11:00",
         type := "work", recurring := true, daysOfWeek := [1, 2, 3, 4, 5],
         specificDates := [], deletedOccurrences := [], modifiedOccurrences := [] },
       { id := "early", title := "Early", startTime := "08:00", endTime := "09:00",
         type := "work", recurring := true, daysOfWeek := [1, 2, 3, 4, 5],
         specificDates := [], deletedOccurrences := [], modifiedOccurrences := [] }],
    settings := { studyWindowStartHour := 8, studyWindowEndHour := 20,
                  workDays := [1, 2, 3, 4, 5] },
    getDay := fun _ => 1 }

/-- **C8 (counterexample).**  On `unsortedEnv` the resolver returns the
10:00 commitment before the 08:00 one, so its output is not sorted by
start time. -/
theorem getCommitmentsForDate_not_sorted :
    (getCommitmentsForDate unsortedEnv "2024-01-08").map
        (fun c => c.startTime) = ["10:00", "08:00"]
    ∧ ¬ List.Pairwise (fun a b : FixedCommitment =>
        timeToMinutes a.startTime ≤ timeToMinutes b.startTime)
      (getCommitmentsForDate unsortedEnv "2024-01-08") := by
  constructor
  · rfl
  · intro h
    have := List.rel_of_pairwise_cons h (List.mem_singleton_self _)
    revert this
    decide

/-- **C9.**  If the persisted edit-log payload cannot be parsed, the editor
is constructed with an empty edit log; the failure is swallowed by the
`try`/`catch` (the load is a total function) and the unreadable store is
discarded. -/
theorem loadSessionTimeEdits_parse_failure (payload : String)
    (parse : String → Option (List SessionTimeEdit))
    (hfail : parse payload = none) :
    loadSessionTimeEdits (some payload) parse = [] := by
  simp [loadSessionTimeEdits, hfail]

/-! ## Concrete fixtures and witnesses -/

/-- A scheduled, not-done session `T1#1` at 09:00-10:00. -/
def wSession : StudySession :=
  { taskId := "T1", sessionNumber := 1, startTime := "09:00", endTime := "10:00",
    status := "scheduled", done := false }

/-- An environment with one plan (2024-01-08, holding `wSession`), no
commitments, window 08:00-20:00, and every date on weekday 1. -/
def wEnv : EditorEnv :=
  { studyPlans := [{ date := "2024-01-08", plannedTasks := [wSession] }],
    fixedCommitments := [],
    settings := { studyWindowStartHour := 8, studyWindowEndHour := 20,
                  workDays := [1, 2, 3, 4, 5] },
    getDay := fun _ => 1 }

/-- `openEnv` shifted to a weekend: every date resolves to weekday 6,
which is not among the work days. -/
def weekendEnv : EditorEnv :=
  { studyPlans := [], fixedCommitments := [],
    settings := { studyWindowStartHour := 8, studyWindowEndHour := 20,
                  workDays := [1, 2, 3, 4, 5] },
    getDay := fun _ => 6 }

/-- The `modifiedOccurrences` entry stored in `typedCommitment`. -/
def typedMod : OccurrenceModification :=
  { startTime := none, endTime := none, title := none, type := some "appointment" }

theorem generateSuggestedTimes_spec_witness :
    "08:00" ∈ generateSuggestedTimes openEnv [] "2024-01-08" 60 "T1-1"
    ∧ (checkTimeConflict openEnv [] "2024-01-08" "08:00" 60 "T1-1" true).hasConflict
        = false :=
  ⟨by decide,
    (generateSuggestedTimes_spec openEnv [] "2024-01-08" 60 "T1-1").2.2.2
      "08:00" (by decide) true⟩

theorem editSessionTime_getEditedSession_roundtrip_witness :
    ((editSessionTime wEnv [] "2024-01-08" "T1" 1 "10:00" 60 "edit-1"
        "t0").1.success = true)
    ∧ ((getEditedSession (editSessionTime wEnv [] "2024-01-08" "T1" 1 "10:00" 60
          "edit-1" "t0").2 wSession "2024-01-08").startTime = "10:00"
      ∧ timeToMinutes (getEditedSession (editSessionTime wEnv [] "2024-01-08" "T1" 1
          "10:00" 60 "edit-1" "t0").2 wSession "2024-01-08").endTime
        = timeToMinutes "10:00" + 60) :=
  ⟨by decide,
    editSessionTime_getEditedSession_roundtrip wEnv [] "2024-01-08" "T1" 1 "10:00"
      60 "edit-1" "t0" wSession rfl rfl (by decide)⟩

theorem editSessionTime_conflict_unchanged_witness :
    ((checkTimeConflict wEnv [] "2024-01-08" "07:00" 60 (sessionKey "T1" 1)
        true).hasConflict = true)
    ∧ editSessionTime wEnv [] "2024-01-08" "T1" 1 "07:00" 60 "edit-1" "t0"
        = ({ success := false,
             error := (checkTimeConflict wEnv [] "2024-01-08" "07:00" 60
               (sessionKey "T1" 1) true).conflictsWith }, []) :=
  ⟨by decide,
    editSessionTime_conflict_unchanged wEnv [] "2024-01-08" "T1" 1 "07:00" 60
      "edit-1" "t0" (by decide)⟩

theorem getCommitmentsForDate_overlay_mem_witness :
    (typedCommitment ∈ typedEnv.fixedCommitments
      ∧ typedCommitment.deletedOccurrences.contains "2024-01-08" = false
      ∧ (if typedCommitment.recurring then
          typedCommitment.daysOfWeek.contains (typedEnv.getDay "2024-01-08")
          else typedCommitment.specificDates.contains "2024-01-08") = true
      ∧ typedCommitment.modifiedOccurrences.lookup "2024-01-08" = some typedMod)
    ∧ { typedCommitment with
          startTime := jsOr typedMod.startTime typedCommitment.startTime,
          endTime := jsOr typedMod.endTime typedCommitment.endTime,
          title := jsOr typedMod.title typedCommitment.title }
        ∈ getCommitmentsForDate typedEnv "2024-01-08" :=
  ⟨⟨by decide, by decide, by decide, by decide⟩,
    getCommitmentsForDate_overlay_mem typedEnv "2024-01-08" typedCommitment typedMod
      (by decide) (by decide) (by decide) (by decide)⟩

theorem checkTimeConflict_suggestions_by_kind_witness :
    firstConflict weekendEnv [] "2024-01-06" "09:00" 60 "T1-1"
        = some ConflictKind.workday
    ∧ (checkTimeConflict weekendEnv [] "2024-01-06" "09:00" 60 "T1-1"
        true).suggestedTimes = some [] :=
  ⟨by decide,
    (checkTimeConflict_suggestions_by_kind weekendEnv [] "2024-01-06" "09:00" 60
      "T1-1").1 (by decide)⟩

theorem removeEdit_after_edit_reverts_witness :
    ((([] : List SessionTimeEdit).filter (editMatches "2024-01-08" "T1" 1)).length ≤ 1
      ∧ (editSessionTime wEnv [] "2024-01-08" "T1" 1 "10:00" 60 "edit-1"
          "t0").1.success = true)
    ∧ ((removeEdit (editSessionTime wEnv [] "2024-01-08" "T1" 1 "10:00" 60 "edit-1"
          "t0").2 "2024-01-08" "T1" 1).1 = true
      ∧ getEditedSession (removeEdit (editSessionTime wEnv [] "2024-01-08" "T1" 1
          "10:00" 60 "edit-1" "t0").2 "2024-01-08" "T1" 1).2 wSession "2024-01-08"
        = wSession) :=
  ⟨⟨by decide, by decide⟩,
    (removeEdit_after_edit_reverts wEnv [] "2024-01-08" "T1" 1 "10:00" 60 "edit-1"
      "t0" wSession rfl rfl (by decide) (by decide)).1⟩

/-- A parse function that always fails, standing in for `JSON.parse` on a
malformed payload. -/
def failingParse : String → Option (List SessionTimeEdit) := fun _ => none

theorem loadSessionTimeEdits_parse_failure_witness :
    failingParse "garbage" = none
    ∧ loadSessionTimeEdits (some "garbage") failingParse = [] :=
  ⟨rfl, loadSessionTimeEdits_parse_failure "garbage" failingParse rfl⟩

theorem editSessionTime_conflict_before_not_found_witness :
    (findSession wEnv "2024-01-08" "T9" 1 = none
      ∧ (checkTimeConflict wEnv [] "2024-01-08" "09:00" 60 (sessionKey "T9" 1)
          true).hasConflict = true)
    ∧ editSessionTime wEnv [] "2024-01-08" "T9" 1 "09:00" 60 "edit-1" "t0"
        = ({ success := false,
             error := (checkTimeConflict wEnv [] "2024-01-08" "09:00" 60
               (sessionKey "T9" 1) true).conflictsWith }, []) :=
  ⟨⟨by decide, by decide⟩,
    (editSessionTime_conflict_before_not_found wEnv [] "2024-01-08" "T9" 1 "09:00"
      60 "edit-1" "t0" (by decide)).1 (by decide)⟩

end TiP
